import Mathlib

/-!
Verification development for the x11-clipboard crate (src/lib.rs, src/run.rs).

The Rust sources are shallowly embedded below:

* protocol atoms and windows become `Nat`;
* `HashMap` becomes an association list with `lookupKey` / `eraseKey` /
  `insertKey` (insert replaces the previous binding, as `HashMap::insert`);
* byte payloads become `List Nat`;
* the owner service loop of `run.rs` is split into one Lean function per
  dispatch arm (`handleSelectionRequest`, `handleIncrAck`, the drain loop,
  `SelectionClear`), each translated line by line from the source;
* the client state machine `Clipboard::process_event` of `lib.rs` becomes
  `processEvents`, a recursion over the stream of delivered events, where each
  event carries the `get_property` reply the X server would hand back (the
  reply is oracle data chosen by the environment);
* fallible Rust code returns `Except XError`; `usize` subtraction that can
  panic (underflow in debug builds, followed by an out-of-range slice index in
  any build) is modelled by an explicit `.crashed` result.

Real time (the 50ms poll sleep and the `Instant`-based timeout clock) is not
modelled: `processEvents` consumes the events actually delivered and reports
`.pending` when the stream is exhausted before the loop finishes.
-/

namespace XClip

/-- Protocol atom identifier (`x11rb::protocol::xproto::Atom`, a `u32`). -/
abbrev Atom := Nat

/-- Window identifier (`x11rb::protocol::xproto::Window`, a `u32`). -/
abbrev Window := Nat

/-- `AtomEnum::NONE` is atom 0. -/
def atomNone : Atom := 0

/-- `AtomEnum::ATOM` (the type of atom arrays) is atom 4. -/
def atomATOM : Atom := 4

/-- `Property::NEW_VALUE` in a `PropertyNotify` event. -/
def propNewValue : Nat := 0

/-- `Property::DELETE` in a `PropertyNotify` event. -/
def propDelete : Nat := 1

/-- `pub const INCR_CHUNK_SIZE: usize = 4000;` from lib.rs. -/
def INCR_CHUNK_SIZE : Nat := 4000

/-- Association-list lookup, embedding `HashMap::get`. -/
def lookupKey {β : Type} (k : Nat) : List (Nat × β) → Option β
  | [] => none
  | (a, b) :: l => if a = k then some b else lookupKey k l

/-- Association-list removal, embedding `HashMap::remove`. -/
def eraseKey {β : Type} (k : Nat) : List (Nat × β) → List (Nat × β)
  | [] => []
  | (a, b) :: l => if a = k then eraseKey k l else (a, b) :: eraseKey k l

/-- Association-list insert-or-replace, embedding `HashMap::insert`. -/
def insertKey {β : Type} (k : Nat) (v : β) (l : List (Nat × β)) : List (Nat × β) :=
  (k, v) :: eraseKey k l

/-- One offered entry list for a selection: the `Vec<(Atom, Vec<u8>)>` stored
in the `SetMap`. -/
abbrev Offer := List (Atom × List Nat)

/-- `SetMap = Arc<RwLock<HashMap<Atom, Vec<(Atom, Vec<u8>)>>>>` from lib.rs,
with the lock elided (lock poisoning is not modelled). -/
abbrev SetMap := List (Atom × Offer)

/-- `incr_map : HashMap<Atom, Atom>` from run.rs: selection to the destination
property of its in-flight incremental transfer. -/
abbrev IncrMap := List (Atom × Atom)

/-- `struct IncrState` from run.rs. -/
structure IncrState where
  selection : Atom
  requestor : Window
  property : Atom
  target : Atom
  pos : Nat
deriving DecidableEq, Repr

/-- `state_map : HashMap<Atom, IncrState>` from run.rs: destination property to
in-flight incremental transfer state. -/
abbrev StateMap := List (Atom × IncrState)

/-- The two atoms of `context.atoms` that the service loop consults. -/
structure OwnerAtoms where
  targets : Atom
  incr : Atom
deriving DecidableEq, Repr

/-- Fields of a `SelectionRequestEvent` used by the service loop. -/
structure SelReq where
  selection : Atom
  target : Atom
  requestor : Window
  property : Atom
deriving DecidableEq, Repr

/-- Protocol writes issued by the service loop: `change_property8`,
`change_property32`, `change_window_attributes(PROPERTY_CHANGE)` and the
synthetic `SelectionNotifyEvent` reply. -/
inductive WriteAct
  | prop8 (requestor property type_ : Nat) (value : List Nat)
  | prop32 (requestor property type_ : Nat) (value : List Nat)
  | watchProps (requestor : Nat)
  | notify (requestor selection target property : Nat)
deriving DecidableEq, Repr

/-- Embedding of `targets.iter().find_map(|(t, v)| (t == &target).then_some(v))`. -/
def findTarget (target : Atom) : Offer → Option (List Nat)
  | [] => none
  | (t, v) :: rest => if t = target then some v else findTarget target rest

/-- Embedding of the `Event::SelectionRequest` arm of `run` (run.rs lines
134-210).  Returns the updated `incr_map`, `state_map` and, in order, the
protocol writes performed.  The reply notify carries `event.target`, which the
no-match branch has overwritten with `AtomEnum::NONE`. -/
def handleSelectionRequest (ctx : OwnerAtoms) (maxLength : Nat) (setmap : SetMap)
    (im : IncrMap) (sm : StateMap) (ev : SelReq) : IncrMap × StateMap × List WriteAct :=
  let targets? := lookupKey ev.selection setmap
  if ev.target = ctx.targets then
    let allTargets :=
      match targets? with
      | some t => if t = [] then [] else ctx.targets :: t.map Prod.fst
      | none => []
    (im, sm, [.prop32 ev.requestor ev.property atomATOM allTargets,
              .notify ev.requestor ev.selection ev.target ev.property])
  else
    match targets?.bind (findTarget ev.target) with
    | some v =>
      if v.length < maxLength - 24 then
        (im, sm, [.prop8 ev.requestor ev.property ev.target v,
                  .notify ev.requestor ev.selection ev.target ev.property])
      else
        (insertKey ev.selection ev.property im,
         insertKey ev.property ⟨ev.selection, ev.requestor, ev.property, ev.target, 0⟩ sm,
         [.watchProps ev.requestor,
          .prop32 ev.requestor ev.property ctx.incr [],
          .notify ev.requestor ev.selection ev.target ev.property])
    | none =>
      (im, sm, [.notify ev.requestor ev.selection atomNone ev.property])

/-- Result of the `Event::PropertyNotify` (state = DELETE) arm of `run`. -/
inductive IncrAckOut
  | noop
  | wrote (act : WriteAct) (sm' : StateMap)
  | crashed
deriving DecidableEq, Repr

/-- Embedding of the `Event::PropertyNotify` arm of `run` (run.rs lines
211-241), handling an incremental-transfer acknowledgement.  Each failed
`try_continue!` lookup yields `.noop`.  The source computes
`cmp::min(INCR_CHUNK_SIZE, value.len() - state.pos)` and then slices
`&value[state.pos..][..len]`: when `state.pos > value.len()` the `usize`
subtraction overflows (panic in debug builds) and the slice index is out of
range (panic in every build), so that case is modelled as `.crashed`. -/
def handleIncrAck (setmap : SetMap) (sm : StateMap) (prop : Atom) : IncrAckOut :=
  match lookupKey prop sm with
  | none => .noop
  | some st =>
    match lookupKey st.selection setmap with
    | none => .noop
    | some ts =>
      match findTarget st.target ts with
      | none => .noop
      | some v =>
        if st.pos ≤ v.length then
          let len := min INCR_CHUNK_SIZE (v.length - st.pos)
          .wrote (.prop8 st.requestor st.property st.target ((v.drop st.pos).take len))
            (if len = 0 then eraseKey prop sm
             else insertKey prop ⟨st.selection, st.requestor, st.property, st.target,
                                  st.pos + len⟩ sm)
        else .crashed

/-- Embedding of the notification drain loop (run.rs lines 118-132) in the case
where the channel producer is still connected: every queued message is
consumed in order (`Ok(selection)` arm), then `Err(Empty)` breaks.  Each
message removes the selection's `incr_map` entry and, if one existed, the
`state_map` entry it pointed at. -/
def drainList : List Atom → IncrMap → StateMap → IncrMap × StateMap
  | [], im, sm => (im, sm)
  | sel :: rest, im, sm =>
    match lookupKey sel im with
    | some p => drainList rest (eraseKey sel im) (eraseKey p sm)
    | none => drainList rest (eraseKey sel im) sm

/-- Result of `Receiver::try_recv`. -/
inductive RecvRes
  | ok (a : Atom)
  | empty
  | disconnected
deriving DecidableEq, Repr

/-- `Receiver::try_recv` against a channel modelled as a message buffer plus a
producer-disconnected flag: buffered messages are delivered first; once the
buffer is empty a disconnected producer yields `Disconnected`, otherwise
`Empty`. -/
def tryRecv (buf : List Atom) (disc : Bool) : RecvRes × List Atom :=
  match buf with
  | a :: rest => (.ok a, rest)
  | [] => (if disc then .disconnected else .empty, [])

/-- State carried by the drain loop: channel buffer, producer-disconnected
flag, `incr_map` and `state_map`. -/
structure DrainCfg where
  buf : List Atom
  disc : Bool
  incrMap : IncrMap
  stateMap : StateMap
deriving DecidableEq, Repr

/-- Control outcome of one iteration of the drain loop: keep looping, `break`
to dispatch the pending event, or `return` (the whole service loop exits). -/
inductive DrainCtl
  | cont
  | brk
  | ret
deriving DecidableEq, Repr

/-- One iteration of the drain loop body (run.rs lines 118-132), exactly as
written: `Ok(selection)` removes the invalidated state and loops;
`Err(Empty)` breaks; `Err(Disconnected)` returns when `state_map` is empty and
otherwise falls through to the next iteration without changing anything. -/
def drainIter (c : DrainCfg) : DrainCtl × DrainCfg :=
  match tryRecv c.buf c.disc with
  | (.ok sel, rest) =>
    match lookupKey sel c.incrMap with
    | some p =>
      (.cont, { c with buf := rest, incrMap := eraseKey sel c.incrMap,
                       stateMap := eraseKey p c.stateMap })
    | none =>
      (.cont, { c with buf := rest, incrMap := eraseKey sel c.incrMap })
  | (.empty, _) => (.brk, c)
  | (.disconnected, _) =>
    (if c.stateMap = [] then .ret else .cont, c)

/-- Runs up to `n` iterations of the drain loop.  A `.cont` result after `n`
iterations means the loop is still running (it has neither broken out to
dispatch the pending event nor returned). -/
def drainSteps (n : Nat) (c : DrainCfg) : DrainCtl × DrainCfg :=
  match n with
  | 0 => (.cont, c)
  | n + 1 =>
    match drainIter c with
    | (.cont, c') => drainSteps n c'
    | r => r

/-- Events dispatched by the service loop (run.rs lines 133-251). -/
inductive OEvent
  | selRequest (ev : SelReq)
  | propNotify (atom : Nat) (pstate : Nat)
  | selClear (selection : Nat)
  | other
deriving DecidableEq, Repr

/-- Shared configuration observed by the service loop thread: the notification
channel buffer, the two transfer maps, the `SetMap`, and whether the thread
has panicked. -/
structure OwnerCfg where
  buf : List Atom
  incrMap : IncrMap
  stateMap : StateMap
  setmap : SetMap
  crashed : Bool
deriving DecidableEq, Repr

/-- Dispatch of one event by the service loop (the `match event` at run.rs
line 133), updating the shared configuration.  Protocol writes do not change
the configuration; `handleIncrAck`'s `.crashed` outcome sets the `crashed`
flag (the thread panics). -/
def execDispatch (ctx : OwnerAtoms) (maxLength : Nat) (c : OwnerCfg) : OEvent → OwnerCfg
  | .selRequest ev =>
    let r := handleSelectionRequest ctx maxLength c.setmap c.incrMap c.stateMap ev
    { c with incrMap := r.1, stateMap := r.2.1 }
  | .propNotify a pstate =>
    if pstate = propDelete then
      match handleIncrAck c.setmap c.stateMap a with
      | .noop => c
      | .wrote _ sm' => { c with stateMap := sm' }
      | .crashed => { c with crashed := true }
    else c
  | .selClear sel =>
    let c1 :=
      match lookupKey sel c.incrMap with
      | some p => { c with incrMap := eraseKey sel c.incrMap,
                           stateMap := eraseKey p c.stateMap }
      | none => { c with incrMap := eraseKey sel c.incrMap }
    { c1 with setmap := eraseKey sel c1.setmap }
  | .other => c

/-- Atomic actions on the shared state, used to exhibit interleavings of the
service-loop thread with a `store`/`store_multiple` caller.  The loop thread
performs, for each event it dispatches, `drainAll` followed by `dispatch`
(run.rs lines 118-132 then 133-251); a `store` call performs `storeSend`
(the channel send at lib.rs line 282/312) followed by `storeInsert` (the
`SetMap` write at lib.rs line 283-286/313-317).  Actions of different threads
may interleave freely; actions of one thread keep their program order. -/
inductive OwnerAct
  | drainAll
  | dispatch (e : OEvent)
  | storeSend (sel : Atom)
  | storeInsert (sel : Atom) (offer : Offer)
deriving DecidableEq, Repr

/-- Effect of one atomic action on the shared configuration. -/
def execAct (ctx : OwnerAtoms) (maxLength : Nat) (c : OwnerCfg) : OwnerAct → OwnerCfg
  | .drainAll =>
    let r := drainList c.buf c.incrMap c.stateMap
    { c with buf := [], incrMap := r.1, stateMap := r.2 }
  | .dispatch e => execDispatch ctx maxLength c e
  | .storeSend sel => { c with buf := c.buf ++ [sel] }
  | .storeInsert sel offer => { c with setmap := insertKey sel offer c.setmap }

/-- Runs a sequence of atomic actions from a configuration. -/
def execTrace (ctx : OwnerAtoms) (maxLength : Nat) (acts : List OwnerAct)
    (c : OwnerCfg) : OwnerCfg :=
  acts.foldl (execAct ctx maxLength) c

/-- Initial configuration of a fresh service loop: empty channel, no transfer
state, empty `SetMap`. -/
def initCfg : OwnerCfg := ⟨[], [], [], [], false⟩

/-- Modelled from the spec: the error taxonomy of section 7.  The crate's
`error.rs` is not among the sources; the constructors below are the errors the
sources construct: `Error::Timeout`, `Error::Owner`,
`Error::UnexpectedType(t)`, `Error::Lock`, the channel send failure and a
rejected protocol request. -/
inductive XError
  | timeout
  | owner
  | unexpectedType (t : Atom)
  | lock
  | channel
  | request
deriving DecidableEq, Repr

/-- A `GetPropertyReply` as consumed by `process_event`: the reported type,
the payload bytes, and the optional leading 32-bit size hint that the INCR
branch reads via `value32()` (used only to pre-reserve capacity). -/
structure PropReply where
  type_ : Atom
  value : List Nat
  sizeHint : Option Nat
deriving DecidableEq, Repr

/-- Events observed by `process_event` on the getter connection.  Each event
that makes the code issue a `get_property` round trip carries the reply the
server would return, as environment-chosen oracle data. -/
inductive GEvent
  | xfixesNotify
  | selNotify (esel : Atom) (eprop : Atom) (reply : PropReply)
  | propNotify (pstate : Nat) (reply : PropReply)
  | other
deriving DecidableEq, Repr

/-- Outcome of `process_event`: the loop broke out normally with the
accumulated buffer, returned an error, or consumed every delivered event
without finishing (`.pending` carries the loop state; the real loop would keep
polling, with the timeout clock not modelled here). -/
inductive PEOut
  | done (buff : List Nat)
  | fail (e : XError)
  | pending (buff : List Nat) (isIncr : Bool)
deriving DecidableEq, Repr

/-- Embedding of `Clipboard::process_event` (lib.rs lines 387-525) as a
recursion over the delivered event stream.  `incrA` is
`self.getter.atoms.incr`; `selA`, `targetA`, `propA` are the `selection`,
`target`, `property` arguments; `ux` is `use_xfixes`; `sn` is the sequence
number of the triggering request.  Each `(seq, event)` pair is filtered by
`if seq < sequence_number { continue; }` before the event dispatch.  The
`XfixesSelectionNotify` arm re-issues `convert_selection` (a transport write
with no effect on local state) and continues, matching both the guarded arm
and the fall-through when `ux` is false. -/
def processEvents (incrA selA targetA propA : Nat) (ux : Bool) (sn : Nat) :
    List Nat → Bool → List (Nat × GEvent) → PEOut
  | buff, isIncr, [] => .pending buff isIncr
  | buff, isIncr, (s, ev) :: rest =>
    if s < sn then processEvents incrA selA targetA propA ux sn buff isIncr rest
    else
      match ev with
      | .xfixesNotify => processEvents incrA selA targetA propA ux sn buff isIncr rest
      | .selNotify esel eprop reply =>
        if esel ≠ selA then processEvents incrA selA targetA propA ux sn buff isIncr rest
        else if eprop = atomNone then .done buff
        else if reply.type_ = incrA then
          processEvents incrA selA targetA propA ux sn buff true rest
        else if reply.type_ ≠ atomATOM ∧ reply.type_ ≠ targetA then
          .fail (.unexpectedType reply.type_)
        else .done (buff ++ reply.value)
      | .propNotify pstate reply =>
        if isIncr then
          if pstate ≠ propNewValue then
            processEvents incrA selA targetA propA ux sn buff isIncr rest
          else if reply.type_ ≠ targetA then
            processEvents incrA selA targetA propA ux sn buff isIncr rest
          else if reply.value ≠ [] then
            processEvents incrA selA targetA propA ux sn (buff ++ reply.value) true rest
          else .done buff
        else processEvents incrA selA targetA propA ux sn buff isIncr rest
      | .other => processEvents incrA selA targetA propA ux sn buff isIncr rest

/-- Embedding of `Clipboard::load` (lib.rs lines 167-210) after a successful
`convert_selection`: run the event loop, and delete the scratch property only
on the success path (the `?` on `process_event` returns early on error,
skipping the `delete_property` at lines 204-207).  The `Bool` component
records whether that final `delete_property` was issued.  `none` means the
event stream ran out before the loop finished. -/
def load (incrA selA targetA propA : Nat) (sn : Nat)
    (events : List (Nat × GEvent)) : Option (Except XError (List Nat) × Bool) :=
  match processEvents incrA selA targetA propA false sn [] false events with
  | .done buff => some (.ok buff, true)
  | .fail e => some (.error e, false)
  | .pending _ _ => none

/-- Native-endian byte serialisation of one `u32`, as performed by
`change_property32` on the wire (one fixed byte order shared with
`bytesToU32`, so that `u32::from_ne_bytes` inverts it). -/
def u32ToBytes (n : Nat) : List Nat :=
  [n % 256, n / 256 % 256, n / 65536 % 256, n / 16777216 % 256]

/-- `u32::from_ne_bytes` on a 4-byte chunk (same byte order as
`u32ToBytes`); other lengths never reach it. -/
def bytesToU32 : List Nat → Nat
  | [b0, b1, b2, b3] => b0 + 256 * b1 + 65536 * b2 + 16777216 * b3
  | _ => 0

/-- Byte serialisation of a `&[u32]` written with `change_property32`. -/
def encode32 (l : List Nat) : List Nat := l.flatMap u32ToBytes

/-- Embedding of `slice::chunks(4)`: consecutive 4-byte chunks, the last chunk
possibly shorter. -/
def chunks4 : List Nat → List (List Nat)
  | b0 :: b1 :: b2 :: b3 :: rest => [b0, b1, b2, b3] :: chunks4 rest
  | [] => []
  | l => [l]

/-- Embedding of the atom decoding in `Clipboard::list_target_names` (lib.rs
lines 349-352): `output.chunks(size_of::<u32>()).filter_map(|b|
Some(u32::from_ne_bytes(b.try_into().ok()?)))` — every chunk of exactly 4
bytes decodes to one id, a shorter trailing chunk fails `try_into` and is
silently dropped. -/
def decodeAtoms (bytes : List Nat) : List Nat :=
  (chunks4 bytes).filterMap fun c => if c.length = 4 then some (bytesToU32 c) else none

/-- Embedding of `Clipboard::list_target_names` (lib.rs lines 338-357): a
`load` of the `TARGETS` target, decoded with `decodeAtoms` and resolved
through `get_atom_name`, modelled as the total resolution oracle `name`. -/
def listTargetNames (incrA targetsA propA selA : Nat) (sn : Nat)
    (name : Nat → List Nat) (events : List (Nat × GEvent)) :
    Option (Except XError (List (List Nat))) :=
  match load incrA selA targetsA propA sn events with
  | some (.ok bytes, _) => some (.ok ((decodeAtoms bytes).map name))
  | some (.error e, _) => some (.error e)
  | none => none

/-- Embedding of the ownership verification read-back shared by `store` and
`store_multiple` (lib.rs lines 293-299 and 324-330):
`get_selection_owner(..).reply().map(|r| r.owner == window).unwrap_or(false)`.
`readback` is `some owner` for a successful reply and `none` when the reply
itself fails. -/
def verifyOwner (window : Window) (readback : Option Window) : Bool :=
  match readback with
  | some o => o = window
  | none => false

/-- Embedding of `Clipboard::store` (lib.rs lines 276-305).  `sendOk`,
`lockOk` and `setOwnerOk` are oracles for the channel send, the `SetMap`
write lock and the checked `set_selection_owner` request; each failure
propagates the corresponding error before later steps run.  Returns the
resulting `SetMap` together with the call's outcome. -/
def store (window : Window) (selection target : Atom) (value : List Nat)
    (m : SetMap) (sendOk lockOk setOwnerOk : Bool) (readback : Option Window) :
    SetMap × Except XError Unit :=
  if !sendOk then (m, .error .channel)
  else if !lockOk then (m, .error .lock)
  else
    let m' := insertKey selection [(target, value)] m
    if !setOwnerOk then (m', .error .request)
    else if verifyOwner window readback then (m', .ok ())
    else (m', .error .owner)

/-- Embedding of `Clipboard::store_multiple` (lib.rs lines 307-336), identical
to `store` except the whole target list is installed as the Offer. -/
def store_multiple (window : Window) (selection : Atom) (targets : Offer)
    (m : SetMap) (sendOk lockOk setOwnerOk : Bool) (readback : Option Window) :
    SetMap × Except XError Unit :=
  if !sendOk then (m, .error .channel)
  else if !lockOk then (m, .error .lock)
  else
    let m' := insertKey selection targets m
    if !setOwnerOk then (m', .error .request)
    else if verifyOwner window readback then (m', .ok ())
    else (m', .error .owner)

/-- Concrete interleaving used to analyse a mid-transfer Offer replacement:
an 80-byte payload is offered and requested (with `max_length` 100 the
76-byte margin forces the incremental path), the first acknowledgement sends
all 80 bytes and advances the cursor to 80, and then a `store` call replaces
the Offer with a 10-byte payload for the same target.  The store's channel
send lands after the drain that precedes the final dispatch, so the
invalidation is still queued when the next acknowledgement is dispatched.
Program order of each thread is respected: the loop thread alternates
`drainAll`/`dispatch`, the store thread runs `storeSend` then `storeInsert`. -/
def staleTracePre : List OwnerAct :=
  [.storeSend 1, .storeInsert 1 [(60, List.replicate 80 0)],
   .drainAll, .dispatch (.selRequest ⟨1, 60, 7, 5⟩),
   .drainAll, .dispatch (.propNotify 5 1),
   .drainAll, .storeSend 1, .storeInsert 1 [(60, List.replicate 10 1)]]

/-- The full interleaving: `staleTracePre` followed by the dispatch of the
pending incremental acknowledgement. -/
def staleTrace : List OwnerAct := staleTracePre ++ [.dispatch (.propNotify 5 1)]

/-- Owner atoms used by the concrete traces: `TARGETS` is atom 50, `INCR` is
atom 100. -/
def traceAtoms : OwnerAtoms := ⟨50, 100⟩

/-- Helper: inserting a binding makes it the one `lookupKey` finds. -/
theorem lookupKey_insertKey_self {β : Type} (k : Nat) (v : β) (m : List (Nat × β)) :
    lookupKey k (insertKey k v m) = some v := by
  simp [insertKey, lookupKey]

/-- Helper: the byte serialisation of one id decodes back to it. -/
theorem bytesToU32_u32ToBytes (n : Nat) (h : n < 4294967296) :
    bytesToU32 (u32ToBytes n) = n := by
  simp [bytesToU32, u32ToBytes]
  omega

/-- Helper: `decodeAtoms` peels one full 4-byte chunk at a time. -/
theorem decodeAtoms_cons4 (b0 b1 b2 b3 : Nat) (rest : List Nat) :
    decodeAtoms (b0 :: b1 :: b2 :: b3 :: rest)
      = bytesToU32 [b0, b1, b2, b3] :: decodeAtoms rest := by
  simp [decodeAtoms, chunks4]

/-- Helper: a reply shorter than one id decodes to nothing. -/
theorem decodeAtoms_short (l : List Nat) (h : l.length < 4) : decodeAtoms l = [] := by
  rcases l with _ | ⟨a, _ | ⟨b, _ | ⟨c, _ | ⟨d, t⟩⟩⟩⟩
  · rfl
  · rfl
  · rfl
  · rfl
  · exfalso
    simp only [List.length_cons] at h
    omega

/-- Helper: `decodeAtoms` after one serialised id. -/
theorem decodeAtoms_u32_append (a : Nat) (rest : List Nat) :
    decodeAtoms (u32ToBytes a ++ rest) = bytesToU32 (u32ToBytes a) :: decodeAtoms rest := by
  simp [u32ToBytes, decodeAtoms_cons4]

/-- Helper: decoding inverts the `change_property32` serialisation of a list
of 32-bit ids. -/
theorem decodeAtoms_encode32 (l : List Nat) (h : ∀ x ∈ l, x < 4294967296) :
    decodeAtoms (encode32 l) = l := by
  induction l with
  | nil => rfl
  | cons a t ih =>
    have ha : a < 4294967296 := h a (by simp)
    have ht : ∀ x ∈ t, x < 4294967296 := fun x hx => h x (by simp [hx])
    have he : encode32 (a :: t) = u32ToBytes a ++ encode32 t := by
      simp [encode32]
    rw [he, decodeAtoms_u32_append, bytesToU32_u32ToBytes a ha, ih ht]

/-- Helper: fuel-indexed form of the id-count law of `decodeAtoms`. -/
theorem decodeAtoms_length_le (n : Nat) :
    ∀ bytes : List Nat, bytes.length ≤ n → (decodeAtoms bytes).length = bytes.length / 4 := by
  induction n with
  | zero =>
    intro bytes h
    rcases bytes with _ | ⟨a, t⟩
    · rfl
    · simp at h
  | succ n ih =>
    intro bytes h
    rcases bytes with _ | ⟨b0, _ | ⟨b1, _ | ⟨b2, _ | ⟨b3, rest⟩⟩⟩⟩
    · rfl
    · simp [decodeAtoms, chunks4]
    · simp [decodeAtoms, chunks4]
    · simp [decodeAtoms, chunks4]
    · have hr : rest.length ≤ n := by
        simp only [List.length_cons] at h
        omega
      rw [decodeAtoms_cons4]
      simp only [List.length_cons, ih rest hr]
      omega

/-- Helper: fuel-indexed form of the fragment-discarding law of
`decodeAtoms`. -/
theorem decodeAtoms_drop_frag (n : Nat) :
    ∀ bytes frag : List Nat, bytes.length ≤ n → bytes.length % 4 = 0 →
      frag.length < 4 → decodeAtoms (bytes ++ frag) = decodeAtoms bytes := by
  induction n with
  | zero =>
    intro bytes frag h h4 hf
    rcases bytes with _ | ⟨a, t⟩
    · simpa using decodeAtoms_short frag hf
    · simp at h
  | succ n ih =>
    intro bytes frag h h4 hf
    rcases bytes with _ | ⟨b0, _ | ⟨b1, _ | ⟨b2, _ | ⟨b3, rest⟩⟩⟩⟩
    · simpa using decodeAtoms_short frag hf
    · simp only [List.length_cons, List.length_nil] at h4
      omega
    · simp only [List.length_cons, List.length_nil] at h4
      omega
    · simp only [List.length_cons, List.length_nil] at h4
      omega
    · have hr : rest.length ≤ n := by
        simp only [List.length_cons] at h
        omega
      have hr4 : rest.length % 4 = 0 := by
        simp only [List.length_cons] at h4
        omega
      simp only [List.cons_append, decodeAtoms_cons4]
      rw [ih rest frag hr hr4 hf]

/-- Claim C4: in both `load` and `load_wait` (the shared `process_event`
loop, for either value of `use_xfixes`), an event whose sequence number is
strictly below the triggering request's sequence number is skipped: the loop's
outcome over the stream is the same as over the stream without that event, so
a stale event contributes no bytes and cannot terminate the call. -/
theorem c4_stale_events_ignored (incrA selA targetA propA : Nat) (ux : Bool)
    (sn : Nat) (buff : List Nat) (isIncr : Bool) (s : Nat) (e : GEvent)
    (rest : List (Nat × GEvent)) (h : s < sn) :
    processEvents incrA selA targetA propA ux sn buff isIncr ((s, e) :: rest)
      = processEvents incrA selA targetA propA ux sn buff isIncr rest := by
  simp [processEvents, h]

/-- Witness for C4 at a concrete stale event. -/
theorem c4_witness :
    processEvents 9 1 2 3 false 5 [] false [(4, GEvent.other)]
      = processEvents 9 1 2 3 false 5 [] false [] :=
  c4_stale_events_ignored 9 1 2 3 false 5 [] false 4 GEvent.other [] (by decide)

/-- Claim C5: a reply-notify for the requested selection that deposits a
property whose reported type is neither the incremental-transfer marker, nor
the requested target, nor an atom-array makes the event loop (shared by
`load` and `load_wait`) fail with `UnexpectedType` carrying the offending
type. -/
theorem c5_unexpected_type_fails (incrA selA targetA propA : Nat) (ux : Bool)
    (sn s : Nat) (buff : List Nat) (isIncr : Bool) (eprop : Atom)
    (reply : PropReply) (rest : List (Nat × GEvent)) (hs : ¬ s < sn)
    (hp : eprop ≠ atomNone) (hincr : reply.type_ ≠ incrA)
    (hatom : reply.type_ ≠ atomATOM) (htgt : reply.type_ ≠ targetA) :
    processEvents incrA selA targetA propA ux sn buff isIncr
        ((s, .selNotify selA eprop reply) :: rest)
      = .fail (.unexpectedType reply.type_) := by
  simp [processEvents, hs, hp, hincr, hatom, htgt]

/-- Witness for C5 at a concrete offending reply type. -/
theorem c5_witness :
    processEvents 100 1 60 3 false 5 [] false [(7, .selNotify 1 9 ⟨99, [1], none⟩)]
      = .fail (.unexpectedType 99) :=
  c5_unexpected_type_fails 100 1 60 3 false 5 7 [] false 9 ⟨99, [1], none⟩ []
    (by decide) (by decide) (by decide) (by decide) (by decide)

/-- Claim C2: for a `ContentRequest` whose target is not the enumerate-formats
marker and matches an offered entry, the payload is written to the destination
property in one shot exactly when its length is strictly below
`maxRequestBytes - 24`; otherwise the loop writes an empty incremental-marker
placeholder and registers a fresh transfer state with cursor 0, indexed both
under the destination property and under the selection's pending-transfer
index. -/
theorem c2_single_shot_margin (ctx : OwnerAtoms) (maxLength : Nat)
    (setmap : SetMap) (im : IncrMap) (sm : StateMap) (ev : SelReq) (ts : Offer)
    (v : List Nat) (hne : ev.target ≠ ctx.targets) (_h24 : 24 ≤ maxLength)
    (hsel : lookupKey ev.selection setmap = some ts)
    (hft : findTarget ev.target ts = some v) :
    (v.length < maxLength - 24 →
      handleSelectionRequest ctx maxLength setmap im sm ev
        = (im, sm, [.prop8 ev.requestor ev.property ev.target v,
                    .notify ev.requestor ev.selection ev.target ev.property]))
    ∧ (¬ v.length < maxLength - 24 →
      handleSelectionRequest ctx maxLength setmap im sm ev
        = (insertKey ev.selection ev.property im,
           insertKey ev.property
             ⟨ev.selection, ev.requestor, ev.property, ev.target, 0⟩ sm,
           [.watchProps ev.requestor,
            .prop32 ev.requestor ev.property ctx.incr [],
            .notify ev.requestor ev.selection ev.target ev.property])
      ∧ lookupKey ev.property
          (insertKey ev.property
            ⟨ev.selection, ev.requestor, ev.property, ev.target, 0⟩ sm)
          = some ⟨ev.selection, ev.requestor, ev.property, ev.target, 0⟩
      ∧ lookupKey ev.selection (insertKey ev.selection ev.property im)
          = some ev.property) := by
  constructor
  · intro h
    simp [handleSelectionRequest, hne, hsel, hft, h]
  · intro h
    refine ⟨?_, lookupKey_insertKey_self .., lookupKey_insertKey_self ..⟩
    simp [handleSelectionRequest, hne, hsel, hft, h]

/-- Witness for C2: a 3-byte payload against a 30-byte request budget goes out
in a single shot. -/
theorem c2_witness :
    handleSelectionRequest ⟨50, 100⟩ 30 [(1, [(60, [1, 2, 3])])] [] [] ⟨1, 60, 7, 5⟩
      = ([], [], [.prop8 7 5 60 [1, 2, 3], .notify 7 1 60 5]) :=
  (c2_single_shot_margin ⟨50, 100⟩ 30 [(1, [(60, [1, 2, 3])])] [] [] ⟨1, 60, 7, 5⟩
      [(60, [1, 2, 3])] [1, 2, 3] (by decide) (by decide) rfl rfl).1 (by decide)

/-- Claim C3 (amended): when the per-property state and the current Offer's
matching payload are found and the cursor does not exceed that payload's
length, the acknowledgement handler writes exactly
`min INCR_CHUNK_SIZE (length - cursor)` bytes starting at the cursor, advances
the cursor by that amount, and removes the state exactly when the written
length is zero; when the cursor exceeds the current payload's length (an Offer
replaced mid-transfer, see C1) the thread panics instead of writing; and every
lookup miss leaves all state unchanged and surfaces no error. -/
theorem c3_incr_chunk_step (setmap : SetMap) (sm : StateMap) (prop : Atom) :
    (∀ st ts v, lookupKey prop sm = some st →
      lookupKey st.selection setmap = some ts →
      findTarget st.target ts = some v → st.pos ≤ v.length →
      handleIncrAck setmap sm prop
        = .wrote (.prop8 st.requestor st.property st.target
            ((v.drop st.pos).take (min INCR_CHUNK_SIZE (v.length - st.pos))))
          (if min INCR_CHUNK_SIZE (v.length - st.pos) = 0 then eraseKey prop sm
           else insertKey prop ⟨st.selection, st.requestor, st.property, st.target,
              st.pos + min INCR_CHUNK_SIZE (v.length - st.pos)⟩ sm)
      ∧ ((v.drop st.pos).take (min INCR_CHUNK_SIZE (v.length - st.pos))).length
          = min INCR_CHUNK_SIZE (v.length - st.pos))
    ∧ (∀ st ts v, lookupKey prop sm = some st →
      lookupKey st.selection setmap = some ts →
      findTarget st.target ts = some v → v.length < st.pos →
      handleIncrAck setmap sm prop = .crashed)
    ∧ (lookupKey prop sm = none → handleIncrAck setmap sm prop = .noop)
    ∧ (∀ st, lookupKey prop sm = some st → lookupKey st.selection setmap = none →
      handleIncrAck setmap sm prop = .noop)
    ∧ (∀ st ts, lookupKey prop sm = some st →
      lookupKey st.selection setmap = some ts → findTarget st.target ts = none →
      handleIncrAck setmap sm prop = .noop) := by
  refine ⟨?_, ?_, ?_, ?_, ?_⟩
  · intro st ts v h1 h2 h3 h4
    constructor
    · simp [handleIncrAck, h1, h2, h3, h4]
    · simp only [List.length_take, List.length_drop]
      omega
  · intro st ts v h1 h2 h3 h4
    simp only [handleIncrAck, h1, h2, h3]
    rw [if_neg (by omega)]
  · intro h1
    simp [handleIncrAck, h1]
  · intro st h1 h2
    simp [handleIncrAck, h1, h2]
  · intro st ts h1 h2 h3
    simp [handleIncrAck, h1, h2, h3]

/-- Counterexample to C3 as stated: along `staleTracePre` the final
acknowledgement is dispatched while a state with cursor 80 is registered under
property 5, yet the handler crashes (out-of-range slice) instead of writing
`min INCR_CHUNK_SIZE (length - cursor)` bytes or removing the state. -/
theorem c3_chunk_claim_cex :
    lookupKey 5 (execTrace traceAtoms 100 staleTracePre initCfg).stateMap
        = some ⟨1, 7, 5, 60, 80⟩
    ∧ handleIncrAck (execTrace traceAtoms 100 staleTracePre initCfg).setmap
        (execTrace traceAtoms 100 staleTracePre initCfg).stateMap 5
      = .crashed :=
  ⟨rfl, rfl⟩

/-- Witness for C3 at a concrete mid-transfer state: cursor 2 into a 5-byte
payload yields the 3 remaining bytes and a cursor of 5. -/
theorem c3_witness :
    handleIncrAck [(1, [(60, [1, 2, 3, 4, 5])])] [(5, ⟨1, 7, 5, 60, 2⟩)] 5
      = .wrote (.prop8 7 5 60 [3, 4, 5]) [(5, ⟨1, 7, 5, 60, 5⟩)] :=
  (((c3_incr_chunk_step [(1, [(60, [1, 2, 3, 4, 5])])] [(5, ⟨1, 7, 5, 60, 2⟩)] 5).1
      ⟨1, 7, 5, 60, 2⟩ [(60, [1, 2, 3, 4, 5])] [1, 2, 3, 4, 5] rfl rfl rfl
      (by decide)).1).trans (by decide)

/-- Claim C1 (code bug): along the legal interleaving `staleTrace` — the
store's channel send lands after the drain preceding the final dispatch, so
the in-flight state survives while the Offer has already been replaced — the
dispatched acknowledgement finds a registered cursor of 80 against a current
matching payload of length 10, and the chunk computation panics (`usize`
underflow in `value.len() - state.pos`, out-of-range `&value[state.pos..]`),
violating the invariant that the cursor never exceeds the current payload's
length. -/
theorem c1_cursor_exceeds_payload :
    lookupKey 5 (execTrace traceAtoms 100 staleTracePre initCfg).stateMap
        = some ⟨1, 7, 5, 60, 80⟩
    ∧ ((lookupKey 1 (execTrace traceAtoms 100 staleTracePre initCfg).setmap).bind
        (findTarget 60)).map List.length = some 10
    ∧ (execTrace traceAtoms 100 staleTrace initCfg).crashed = true :=
  ⟨rfl, rfl, rfl⟩

/-- Counterexample to C6 as stated: a `load` that ends in `UnexpectedType`
returns without issuing the final `delete_property` on the scratch property
(the `Bool` component is `false`). -/
theorem c6_no_delete_on_error :
    load 100 1 60 5 10 [(10, .selNotify 1 5 ⟨99, [1, 2, 3], none⟩)]
      = some (.error (.unexpectedType 99), false) :=
  rfl

/-- Claim C6 (amended): `load` deletes the scratch property exactly when the
event loop completes successfully and the call returns the accumulated bytes;
a call that exits with an error returns before the deletion. -/
theorem c6_delete_iff_success (incrA selA targetA propA sn : Nat)
    (events : List (Nat × GEvent)) (res : Except XError (List Nat)) (del : Bool)
    (h : load incrA selA targetA propA sn events = some (res, del)) :
    del = true ↔ ∃ b, res = Except.ok b := by
  unfold load at h
  cases hpe : processEvents incrA selA targetA propA false sn [] false events <;>
    rw [hpe] at h
  case done b =>
    simp only [Option.some.injEq, Prod.mk.injEq] at h
    obtain ⟨h1, h2⟩ := h
    subst h1
    subst h2
    simp
  case fail e =>
    simp only [Option.some.injEq, Prod.mk.injEq] at h
    obtain ⟨h1, h2⟩ := h
    subst h1
    subst h2
    simp
  case pending b i =>
    simp at h

/-- Witness for C6 (amended) at a concrete successful load. -/
theorem c6_witness :
    (true = true ↔ ∃ b, (Except.ok [7] : Except XError (List Nat)) = Except.ok b) :=
  c6_delete_iff_success 100 1 60 5 10 [(10, .selNotify 1 5 ⟨60, [7], none⟩)]
    (Except.ok [7]) true rfl

/-- Claim C7: once `store` / `store_multiple` have installed the new Offer and
asserted ownership, the call succeeds exactly when the ownership read-back
reports the process's serving window as owner, and returns the ownership
error exactly when the read-back reports another owner or itself fails. -/
theorem c7_ownership_verified (window : Window) (selection target : Atom)
    (value : List Nat) (targets : Offer) (m : SetMap)
    (readback : Option Window) :
    ((store window selection target value m true true true readback).2 = .ok ()
        ↔ readback = some window)
    ∧ ((store window selection target value m true true true readback).2
        = .error .owner ↔ readback ≠ some window)
    ∧ ((store_multiple window selection targets m true true true readback).2
        = .ok () ↔ readback = some window)
    ∧ ((store_multiple window selection targets m true true true readback).2
        = .error .owner ↔ readback ≠ some window) := by
  cases readback with
  | none => simp [store, store_multiple, verifyOwner]
  | some o =>
    by_cases ho : o = window <;>
      simp [store, store_multiple, verifyOwner, ho]

/-- Claim C8: after `store_multiple` installs the two-entry Offer, the service
loop answers the enumerate-formats request with the marker id followed by the
two format ids in stored order, and a `list_target_names` fed that reply
resolves exactly those three ids, in order, to names. -/
theorem c8_targets_roundtrip (window : Window) (sel f1 f2 : Atom)
    (v1 v2 : List Nat) (m : SetMap) (targetsA incrA req prop s sn maxLength : Nat)
    (name : Nat → List Nat) (im : IncrMap) (sm : StateMap)
    (h1 : f1 < 4294967296) (h2 : f2 < 4294967296) (ht : targetsA < 4294967296)
    (hi : incrA ≠ atomATOM) (hp : prop ≠ atomNone) (hs : ¬ s < sn) :
    handleSelectionRequest ⟨targetsA, incrA⟩ maxLength
        (store_multiple window sel [(f1, v1), (f2, v2)] m true true true
          (some window)).1
        im sm ⟨sel, targetsA, req, prop⟩
      = (im, sm, [.prop32 req prop atomATOM [targetsA, f1, f2],
                  .notify req sel targetsA prop])
    ∧ listTargetNames incrA targetsA prop sel sn name
        [(s, .selNotify sel prop ⟨atomATOM, encode32 [targetsA, f1, f2], none⟩)]
      = some (.ok [name targetsA, name f1, name f2]) := by
  have hd : decodeAtoms (encode32 [targetsA, f1, f2]) = [targetsA, f1, f2] := by
    refine decodeAtoms_encode32 _ ?_
    intro x hx
    simp only [List.mem_cons, List.not_mem_nil, or_false] at hx
    rcases hx with rfl | rfl | rfl <;> assumption
  constructor
  · simp [store_multiple, verifyOwner, handleSelectionRequest, lookupKey_insertKey_self]
  · simp [listTargetNames, load, processEvents, hs, hp, Ne.symm hi, hd]

/-- Witness for C8 at concrete atoms and a concrete resolution oracle. -/
theorem c8_witness :
    handleSelectionRequest ⟨50, 100⟩ 0
        (store_multiple 9 1 [(60, [1]), (70, [2])] [] true true true (some 9)).1
        [] [] ⟨1, 50, 7, 5⟩
      = ([], [], [.prop32 7 5 atomATOM [50, 60, 70], .notify 7 1 50 5])
    ∧ listTargetNames 100 50 5 1 10 (fun n => [n])
        [(10, .selNotify 1 5 ⟨atomATOM, encode32 [50, 60, 70], none⟩)]
      = some (.ok [[50], [60], [70]]) :=
  c8_targets_roundtrip 9 1 60 70 [1] [2] [] 50 100 7 5 10 10 0 (fun n => [n]) [] []
    (by decide) (by decide) (by decide) (by decide) (by decide) (by decide)

/-- Claim C9 (code bug): entered with the channel producer gone, the buffer
empty, and one incremental transfer still registered, the notification drain
loop never terminates: every iteration takes the `Disconnected` arm, changes
nothing, and loops again, so for every fuel bound it has neither broken out to
dispatch the pending event nor returned. -/
theorem c9_drain_spins_forever (n : Nat) :
    drainSteps n ⟨[], true, [(1, 5)], [(5, ⟨1, 7, 5, 60, 0⟩)]⟩
      = (.cont, ⟨[], true, [(1, 5)], [(5, ⟨1, 7, 5, 60, 0⟩)]⟩) := by
  induction n with
  | zero => rfl
  | succ n ih => exact ih

/-- Claim C10: `list_target_names` decodes a reply of `n` bytes into exactly
`n / 4` native-endian 4-byte ids, and a trailing fragment of fewer than 4
bytes is silently discarded rather than causing an error. -/
theorem c10_decode_floor_div :
    (∀ bytes : List Nat, (decodeAtoms bytes).length = bytes.length / 4)
    ∧ (∀ bytes frag : List Nat, bytes.length % 4 = 0 → frag.length < 4 →
        decodeAtoms (bytes ++ frag) = decodeAtoms bytes) :=
  ⟨fun bytes => decodeAtoms_length_le bytes.length bytes le_rfl,
   fun bytes frag h4 hf => decodeAtoms_drop_frag bytes.length bytes frag le_rfl h4 hf⟩

/-- Witness for C10: a 2-byte fragment after one full id is dropped. -/
theorem c10_witness :
    decodeAtoms ([0, 0, 0, 0] ++ [1, 2]) = decodeAtoms [0, 0, 0, 0] :=
  c10_decode_floor_div.2 [0, 0, 0, 0] [1, 2] (by decide) (by decide)

end XClip

